import Mathlib

/-!
Verification of the Pagila RAG backend (FastAPI + LangChain SQL agent).

The development shallowly embeds the two source files of the repository:

* `backend/agent.py` — the fallback text extractor `fallback_handler`,
  the database singleton `get_db`, the provider-selecting constructors
  `get_llm` / `get_openai_llm`, and `create_pagila_agent`;
* `backend/api.py` — the per-model agent cache `agent_cache` with
  `get_agent_for_model`, the module-level eager initialization of the
  default agent, `get_models`, and the `POST /chat` handler `chat`.

Python strings are modelled as `List Char`.  Python's `str.split(sep)`
(for a nonempty separator) is modelled by `splitOnSub`, written with an
explicit skip counter so that it is structurally recursive and therefore
evaluates inside the kernel.  Stateful module-level globals
(`_db_instance`, `agent_cache`) become an explicit state record
`SysState`; `sys.exit` and raised exceptions become distinct failure
outcomes (`FailKind.exitFail` / `FailKind.raiseFail`), since
`get_agent_for_model` catches `Exception` but not `SystemExit`.
External effects (the LLM call, the HTTP fetch of the OpenRouter
catalog, wall-clock time) enter as explicit parameters.
-/

namespace SpaRag

/-- The backtick character, U+0060. -/
def backtick : Char := Char.ofNat 96

/-- Boolean substring test over `List Char`:
`containsSub needle l` is `true` iff `needle` occurs contiguously in `l`.
Models Python's `needle in l`. -/
def containsSub (needle : List Char) : List Char → Bool
  | [] => needle.isEmpty
  | c :: rest => needle.isPrefixOf (c :: rest) || containsSub needle rest

/-- Worker for `splitOnSub`.  `skip` counts separator characters that
still have to be consumed after a match; while `skip > 0` the input is
dropped without looking for further (overlapping) matches.  Structural
recursion on the list argument, so concrete calls reduce in the kernel. -/
def splitGo (sep : List Char) : Nat → List Char → List (List Char)
  | _ + 1, [] => [[]]
  | 0, [] => [[]]
  | k + 1, _ :: rest => splitGo sep k rest
  | 0, c :: rest =>
    if sep.isPrefixOf (c :: rest) then
      [] :: splitGo sep (sep.length - 1) rest
    else
      match splitGo sep 0 rest with
      | [] => [[c]]
      | p :: ps => (c :: p) :: ps

/-- Python's `l.split(sep)` for a nonempty separator `sep`:
the list of maximal segments of `l` between non-overlapping,
left-to-right occurrences of `sep`. -/
def splitOnSub (sep l : List Char) : List (List Char) := splitGo sep 0 l

/-- Python's `if response.endswith(chr(96)): response = response[:-1]`:
remove exactly one trailing backtick when present. -/
def stripTrailingTick (l : List Char) : List Char :=
  if l.getLast? = some backtick then l.dropLast else l

/-- The containment marker `"Could not parse LLM output:"` checked first
by `fallback_handler` (agent.py line 80). -/
def couldNotParse : List Char := "Could not parse LLM output:".data

/-- The split marker `"Could not parse LLM output: `"` (agent.py line 82). -/
def parseMarker : List Char := "Could not parse LLM output: `".data

/-- The instruction template prepended to the extracted text
(agent.py line 90). -/
def fallbackTemplate : List Char :=
  "Output parsed but format incorrect. Please repeat this EXACT answer with the prefix 'Final Answer:': ".data

/-- The generic fallback (agent.py line 95), embedding the raw error text. -/
def genericFallback (errorStr : List Char) : List Char :=
  "Error: ".data ++ errorStr ++
    ". Please check your output format. If you have the answer, output it as 'Final Answer: [your answer]'.".data

/-- `fallback_handler` from agent.py lines 71-95, on the stringified
error.  The `try`/`except` around the extraction can never fire in the
embedded (pure, total) operations, and the code falls through to the
generic message both when the short marker is absent and when the split
yields no second part. -/
def fallback_handler (errorStr : List Char) : List Char :=
  if containsSub couldNotParse errorStr then
    if 1 < (splitOnSub parseMarker errorStr).length then
      fallbackTemplate ++ stripTrailingTick ((splitOnSub parseMarker errorStr).getD 1 [])
    else
      genericFallback errorStr
  else
    genericFallback errorStr

/-! ### Helper lemmas about the string operations -/

theorem isPrefixOf_eq_true_iff (l₁ l₂ : List Char) :
    l₁.isPrefixOf l₂ = true ↔ ∃ t, l₂ = l₁ ++ t := by
  induction l₁ generalizing l₂ with
  | nil => simp [List.isPrefixOf]
  | cons a as ih =>
    cases l₂ with
    | nil => simp [List.isPrefixOf]
    | cons b bs =>
      simp only [List.isPrefixOf, Bool.and_eq_true, beq_iff_eq, ih, List.cons_append,
        List.cons.injEq]
      constructor
      · rintro ⟨rfl, t, rfl⟩; exact ⟨t, rfl, rfl⟩
      · rintro ⟨t, rfl, rfl⟩; exact ⟨rfl, t, rfl⟩

theorem isPrefixOf_self_append (l t : List Char) : l.isPrefixOf (l ++ t) = true :=
  (isPrefixOf_eq_true_iff l (l ++ t)).mpr ⟨t, rfl⟩

theorem containsSub_iff (needle l : List Char) :
    containsSub needle l = true ↔ ∃ s t, l = s ++ needle ++ t := by
  induction l with
  | nil =>
    simp only [containsSub, List.isEmpty_iff]
    constructor
    · rintro rfl; exact ⟨[], [], rfl⟩
    · rintro ⟨s, t, h⟩
      rcases List.append_eq_nil.mp h.symm with ⟨h1, h2⟩
      exact (List.append_eq_nil.mp h1).2
  | cons c rest ih =>
    simp only [containsSub, Bool.or_eq_true, isPrefixOf_eq_true_iff, ih]
    constructor
    · rintro (⟨t, ht⟩ | ⟨s, t, rfl⟩)
      · exact ⟨[], t, by simpa using ht⟩
      · exact ⟨c :: s, t, rfl⟩
    · rintro ⟨s, t, h⟩
      cases s with
      | nil => exact Or.inl ⟨t, by simpa using h⟩
      | cons a s' =>
        right
        refine ⟨s', t, ?_⟩
        have := h
        simp only [List.cons_append, List.cons.injEq] at this
        exact this.2

theorem splitGo_skip_append (sep pre rest : List Char) :
    splitGo sep pre.length (pre ++ rest) = splitGo sep 0 rest := by
  induction pre with
  | nil => rfl
  | cons c pre ih => simpa [splitGo] using ih

theorem splitOnSub_sep_append (sep rest : List Char) (hsep : sep ≠ []) :
    splitOnSub sep (sep ++ rest) = [] :: splitOnSub sep rest := by
  cases sep with
  | nil => exact absurd rfl hsep
  | cons s0 stl =>
    show splitGo (s0 :: stl) 0 (s0 :: (stl ++ rest)) = _
    rw [splitGo]
    have hpre : (s0 :: stl).isPrefixOf (s0 :: (stl ++ rest)) = true :=
      isPrefixOf_self_append (s0 :: stl) rest
    rw [if_pos hpre]
    have hlen : (s0 :: stl).length - 1 = stl.length := by simp
    rw [hlen, splitGo_skip_append]
    rfl

theorem splitOnSub_not_contains (sep l : List Char)
    (h : ¬ ∃ s t, l = s ++ sep ++ t) : splitOnSub sep l = [l] := by
  induction l with
  | nil => rfl
  | cons c rest ih =>
    show splitGo sep 0 (c :: rest) = _
    rw [splitGo]
    have hp : sep.isPrefixOf (c :: rest) = false := by
      rcases hq : sep.isPrefixOf (c :: rest) with _ | _
      · rfl
      · obtain ⟨t, ht⟩ := (isPrefixOf_eq_true_iff _ _).mp hq
        exact absurd ⟨[], t, by simpa using ht⟩ h
    have hcond : ¬ (sep.isPrefixOf (c :: rest) = true) := by
      rw [hp]; exact fun hq => nomatch hq
    rw [if_neg hcond]
    have hrest : ¬ ∃ s t, rest = s ++ sep ++ t := by
      rintro ⟨s, t, rfl⟩
      exact h ⟨c :: s, t, rfl⟩
    have hr : splitGo sep 0 rest = [rest] := ih hrest
    rw [hr]

theorem splitGo_ne_nil (sep : List Char) : ∀ (k : Nat) (l : List Char),
    splitGo sep k l ≠ [] := by
  intro k l
  induction l generalizing k with
  | nil => cases k <;> simp [splitGo]
  | cons c rest ih =>
    cases k with
    | succ k => simpa [splitGo] using ih k
    | zero =>
      rw [splitGo]
      split
      · simp
      · rcases h : splitGo sep 0 rest with _ | ⟨p, ps⟩ <;> simp

theorem splitOnSub_first_segment (sep u v : List Char) (hsep : sep ≠ [])
    (h : ∀ i, i < u.length → sep.isPrefixOf (List.drop i (u ++ sep ++ v)) = false) :
    splitOnSub sep (u ++ sep ++ v) = u :: splitOnSub sep v := by
  induction u with
  | nil => simpa using splitOnSub_sep_append sep v hsep
  | cons c u' ih =>
    show splitGo sep 0 (c :: (u' ++ sep ++ v)) = _
    rw [splitGo]
    have h0 := h 0 (Nat.succ_pos u'.length)
    rw [List.drop_zero] at h0
    simp only [List.cons_append] at h0
    have hcond : ¬ (sep.isPrefixOf (c :: (u' ++ sep ++ v)) = true) := by
      rw [h0]; exact fun hq => nomatch hq
    rw [if_neg hcond]
    have h' : ∀ i, i < u'.length → sep.isPrefixOf (List.drop i (u' ++ sep ++ v)) = false := by
      intro i hi
      have h1 := h (i + 1) (Nat.succ_lt_succ hi)
      simp only [List.cons_append, List.drop_succ_cons] at h1
      exact h1
    have hrec : splitGo sep 0 (u' ++ sep ++ v) = u' :: splitOnSub sep v := ih h'
    rw [hrec]

theorem stripTrailingTick_append_tick (A : List Char) :
    stripTrailingTick (A ++ [backtick]) = A := by
  unfold stripTrailingTick
  rw [if_pos] <;> simp

theorem parseMarker_eq : parseMarker = couldNotParse ++ " `".data := by decide

theorem parseMarker_ne_nil : parseMarker ≠ [] := by decide

/-- Any string with the long split marker also passes the short
containment check at agent.py line 80. -/
theorem containsSub_short_of_marker (s p t : List Char)
    (h : s = p ++ parseMarker ++ t) :
    containsSub couldNotParse s = true := by
  refine (containsSub_iff _ _).mpr ⟨p, " `".data ++ t, ?_⟩
  rw [h, parseMarker_eq]
  simp

/-- A separator occurrence anywhere in the input makes the split yield
at least two parts. -/
theorem splitOnSub_length_of_contains (sep l : List Char) (hsep : sep ≠ [])
    (h : ∃ p t, l = p ++ sep ++ t) : 1 < (splitOnSub sep l).length := by
  induction l with
  | nil =>
    obtain ⟨p, t, hpt⟩ := h
    rcases List.append_eq_nil.mp hpt.symm with ⟨h1, -⟩
    exact absurd (List.append_eq_nil.mp h1).2 hsep
  | cons c rest ih =>
    by_cases hp : sep.isPrefixOf (c :: rest) = true
    · show 1 < (splitGo sep 0 (c :: rest)).length
      rw [splitGo, if_pos hp]
      have hpos : 0 < (splitGo sep (sep.length - 1) rest).length :=
        List.length_pos.mpr (splitGo_ne_nil sep (sep.length - 1) rest)
      simp only [List.length_cons]
      omega
    · obtain ⟨p, t, hpt⟩ := h
      cases p with
      | nil =>
        have hself : sep.isPrefixOf (c :: rest) = true := by
          rw [show (c :: rest : List Char) = sep ++ t from by simpa using hpt]
          exact isPrefixOf_self_append sep t
        exact absurd hself hp
      | cons a p' =>
        have hrest : rest = p' ++ sep ++ t := by
          have h2 := hpt
          simp only [List.cons_append, List.cons.injEq] at h2
          exact h2.2
        have h1 := ih ⟨p', t, hrest⟩
        show 1 < (splitGo sep 0 (c :: rest)).length
        rw [splitGo, if_neg hp]
        cases hsp : splitGo sep 0 rest with
        | nil => exact absurd hsp (splitGo_ne_nil sep 0 rest)
        | cons q qs =>
          have h2 : 1 < (q :: qs).length := by rw [← hsp]; exact h1
          simpa using h2

/-- If no separator occurrence starts within the first `A.length`
positions, the first split part extends `A`. -/
theorem splitOnSub_head_pre (sep A r : List Char)
    (h : ∀ i, i < A.length → sep.isPrefixOf (List.drop i (A ++ r)) = false) :
    ∃ w, (splitOnSub sep (A ++ r)).headD [] = A ++ w := by
  induction A with
  | nil => exact ⟨(splitOnSub sep r).headD [], rfl⟩
  | cons c A' ih =>
    have h0 := h 0 (Nat.succ_pos A'.length)
    rw [List.drop_zero] at h0
    simp only [List.cons_append] at h0
    have h' : ∀ i, i < A'.length → sep.isPrefixOf (List.drop i (A' ++ r)) = false := by
      intro i hi
      have h1 := h (i + 1) (Nat.succ_lt_succ hi)
      simp only [List.cons_append, List.drop_succ_cons] at h1
      exact h1
    obtain ⟨w, hw⟩ := ih h'
    refine ⟨w, ?_⟩
    show (splitGo sep 0 (c :: (A' ++ r))).headD [] = (c :: A') ++ w
    rw [splitGo]
    have hcond : ¬ (sep.isPrefixOf (c :: (A' ++ r)) = true) := by
      rw [h0]; exact fun hq => nomatch hq
    rw [if_neg hcond]
    cases hsp : splitGo sep 0 (A' ++ r) with
    | nil => exact absurd hsp (splitGo_ne_nil sep 0 (A' ++ r))
    | cons q qs =>
      have hq : q = A' ++ w := by
        have h2 := hw
        rw [show splitOnSub sep (A' ++ r) = splitGo sep 0 (A' ++ r) from rfl, hsp] at h2
        simp at h2
        exact h2
      simp [hq]

theorem dropLast_append_right (a r : List Char) (h : r ≠ []) :
    (a ++ r).dropLast = a ++ r.dropLast := by
  induction a with
  | nil => rfl
  | cons c a' ih =>
    have hne : a' ++ r ≠ [] := by
      intro hq
      exact h (List.append_eq_nil.mp hq).2
    show (c :: (a' ++ r)).dropLast = c :: (a' ++ r.dropLast)
    rw [← ih]
    cases hq : a' ++ r with
    | nil => exact absurd hq hne
    | cons d ds => rfl

/-- Removing one trailing backtick from `A ++ rest` (nonempty `rest`)
keeps `A` as a prefix. -/
theorem stripTrailingTick_append_pre (A r : List Char) (h : r ≠ []) :
    ∃ y, stripTrailingTick (A ++ r) = A ++ y := by
  unfold stripTrailingTick
  split
  · exact ⟨r.dropLast, dropLast_append_right A r h⟩
  · exact ⟨r, rfl⟩

theorem drop_length_append (a c : List Char) : List.drop a.length (a ++ c) = c := by
  induction a with
  | nil => rfl
  | cons x xs _ => simp

/-- If no separator occurrence starts at any position of `t`, then `t`
does not contain the separator. -/
theorem not_contains_of_no_start (sep t : List Char) (hsep : sep ≠ [])
    (h : ∀ i, i < t.length → sep.isPrefixOf (List.drop i t) = false) :
    containsSub sep t = false := by
  cases hcs : containsSub sep t with
  | false => rfl
  | true =>
    exfalso
    obtain ⟨x, y, hxy⟩ := (containsSub_iff sep t).mp hcs
    have hsl : 0 < sep.length := List.length_pos.mpr hsep
    have hlt : x.length < t.length := by
      rw [hxy]
      simp only [List.length_append]
      omega
    have hdrop : List.drop x.length t = sep ++ y := by
      rw [hxy, List.append_assoc, drop_length_append]
    have h2 := h x.length hlt
    rw [hdrop, isPrefixOf_self_append] at h2
    exact nomatch h2

/-- The template branch of `fallback_handler`, for every input that
contains the split marker anywhere: the result is the template followed
by the split part after the first marker, with one trailing backtick
stripped. -/
theorem fallback_marker_split (s p t : List Char)
    (hdec : s = p ++ parseMarker ++ t) :
    fallback_handler s =
      fallbackTemplate ++ stripTrailingTick ((splitOnSub parseMarker s).getD 1 []) := by
  have hshort := containsSub_short_of_marker s p t hdec
  have hlen : 1 < (splitOnSub parseMarker s).length :=
    splitOnSub_length_of_contains parseMarker s parseMarker_ne_nil ⟨p, t, hdec⟩
  unfold fallback_handler
  rw [if_pos hshort, if_pos hlen]

/-- At the first marker occurrence with no later occurrence, the split
part after the marker is the whole remainder `t`. -/
theorem split_getD1_eq (s p t : List Char)
    (hdec : s = p ++ parseMarker ++ t)
    (hfirst : ∀ i, i < p.length → parseMarker.isPrefixOf (List.drop i s) = false)
    (honce : containsSub parseMarker t = false) :
    (splitOnSub parseMarker s).getD 1 [] = t := by
  have hne : ¬ ∃ a b, t = a ++ parseMarker ++ b := by
    intro hex
    rw [(containsSub_iff parseMarker t).mpr hex] at honce
    exact nomatch honce
  have hfirst' : ∀ i, i < p.length →
      parseMarker.isPrefixOf (List.drop i (p ++ parseMarker ++ t)) = false := by
    rw [hdec] at hfirst
    exact hfirst
  have hsplit : splitOnSub parseMarker s = p :: splitOnSub parseMarker t := by
    rw [hdec]
    exact splitOnSub_first_segment parseMarker p t parseMarker_ne_nil hfirst'
  rw [splitOnSub_not_contains parseMarker t hne] at hsplit
  rw [hsplit]
  rfl

/-! ### The gateway: providers, database singleton, agent cache -/

/-- How a construction step fails.  `exitFail` models `sys.exit(1)`
(`SystemExit`, not caught by `except Exception`); `raiseFail` models a
raised `Exception` such as the `ValueError` in `get_openai_llm`. -/
inductive FailKind where
  | exitFail
  | raiseFail
  deriving DecidableEq, Repr

/-- The two LLM providers selected by the model-name prefix rule. -/
inductive Provider where
  | openai
  | openrouter
  deriving DecidableEq, Repr

/-- An agent built by `create_pagila_agent`: it records the model name,
the provider the LLM was bound to, and (the construction index of) the
`SQLDatabase` handle it shares. -/
structure AgentHandle where
  model : List Char
  provider : Provider
  db : Nat
  deriving DecidableEq, Repr

/-- Module-level mutable state: `_db_instance` in agent.py (identified
by its construction index), the number of database constructions
performed, and `agent_cache` in api.py as an association list with the
most recent insertion first. -/
structure SysState where
  db_instance : Option Nat
  db_count : Nat
  agent_cache : List (List Char × AgentHandle)
  deriving DecidableEq, Repr

/-- Environment-provided configuration: whether `OPENROUTER_API_KEY`
and `OPENAI_API_KEY` are set, and whether `POSTGRES_DB_URI` is set and
the database reachable. -/
structure Env where
  openrouter_key : Bool
  openai_key : Bool
  db_ok : Bool
  deriving DecidableEq, Repr

/-- The state before any call: no database handle, empty cache. -/
def initState : SysState := ⟨none, 0, []⟩

/-- `get_llm` (agent.py lines 16-28): requires `OPENROUTER_API_KEY`,
otherwise `sys.exit(1)`. -/
def get_llm (env : Env) : Except FailKind Provider :=
  if env.openrouter_key then .ok .openrouter else .error .exitFail

/-- `get_openai_llm` (agent.py lines 30-42): requires `OPENAI_API_KEY`,
otherwise raises `ValueError`. -/
def get_openai_llm (env : Env) : Except FailKind Provider :=
  if env.openai_key then .ok .openai else .error .raiseFail

/-- `get_db` (agent.py lines 48-69): return the global `_db_instance`
if already set; otherwise construct it from `POSTGRES_DB_URI`
(`sys.exit(1)` if the URI is missing or the connection fails) and store
it. -/
def get_db (env : Env) (st : SysState) : Except FailKind (Nat × SysState) :=
  match st.db_instance with
  | some i => .ok (i, st)
  | none =>
    if env.db_ok then
      .ok (st.db_count,
        { st with db_instance := some st.db_count, db_count := st.db_count + 1 })
    else
      .error .exitFail

/-- The provider-selection rule of `create_pagila_agent`
(agent.py line 100): model names starting with `"gpt-"` use OpenAI. -/
def isGptModel (model : List Char) : Bool := "gpt-".data.isPrefixOf model

/-- `create_pagila_agent` (agent.py lines 97-145): select the provider
by prefix, obtain the LLM (credential checks), obtain the shared
database handle, and assemble the agent.  The toolkit and
`create_sql_agent` calls are pure assembly and cannot fail here. -/
def create_pagila_agent (env : Env) (model : List Char) (st : SysState) :
    Except FailKind (AgentHandle × SysState) :=
  match (if isGptModel model then get_openai_llm env else get_llm env) with
  | .error e => .error e
  | .ok prov =>
    match get_db env st with
    | .error e => .error e
    | .ok (i, st') => .ok (⟨model, prov, i⟩, st')

/-- Lookup in the agent cache (Python dict membership / indexing). -/
def lookupAgent (model : List Char) : List (List Char × AgentHandle) → Option AgentHandle
  | [] => none
  | (k, v) :: rest => if k = model then some v else lookupAgent model rest

/-- The observable outcome of `get_agent_for_model`: a handle, `None`
(an `Exception` was caught), or process termination (`SystemExit`
propagates through `except Exception`). -/
inductive ResolveResult where
  | ok (h : AgentHandle)
  | failed
  | exited
  deriving DecidableEq, Repr

/-- `get_agent_for_model` (api.py lines 35-46): serve from
`agent_cache` when present; otherwise construct, caching only on
success.  A caught exception returns `None` and leaves the state as it
was (the only state writes happen after all failure points). -/
def get_agent_for_model (env : Env) (model : List Char) (st : SysState) :
    ResolveResult × SysState :=
  match lookupAgent model st.agent_cache with
  | some h => (.ok h, st)
  | none =>
    match create_pagila_agent env model st with
    | .ok (h, st') => (.ok h, { st' with agent_cache := (model, h) :: st'.agent_cache })
    | .error .raiseFail => (.failed, st)
    | .error .exitFail => (.exited, st)

/-- The default model identifier (api.py line 26 and agent.py line 97). -/
def defaultModel : List Char := "mistralai/mistral-7b-instruct:free".data

/-- Module import of api.py (line 49): the default model's agent is
resolved eagerly, before any request is served. -/
def moduleInit (env : Env) : ResolveResult × SysState :=
  get_agent_for_model env defaultModel initState

/-- A sequence of resolutions, one per served request. -/
def runResolves (env : Env) (models : List (List Char)) (st : SysState) : SysState :=
  models.foldl (fun s m => (get_agent_for_model env m s).2) st

/-- All cached agents share the stored database instance. -/
def dbShared (st : SysState) : Prop :=
  ∀ p ∈ st.agent_cache, st.db_instance = some p.2.db

/-! ### The HTTP layer: `GET /models` and `POST /chat` -/

/-- An entry of the `/models` response: either one of the hardcoded
OpenAI descriptors or a raw OpenRouter catalog record with its pricing
fields. -/
structure ModelEntry where
  id : Option (List Char)
  name : Option (List Char)
  pricing_prompt : Option (List Char)
  pricing_completion : Option (List Char)
  deriving DecidableEq, Repr

/-- The three hardcoded OpenAI descriptors (api.py lines 61-65). -/
def openai_models : List ModelEntry :=
  [⟨some "gpt-4o-mini".data, some "OpenAI GPT-4o Mini".data, none, none⟩,
   ⟨some "gpt-3.5-turbo".data, some "OpenAI GPT-3.5 Turbo".data, none, none⟩,
   ⟨some "gpt-4o".data, some "OpenAI GPT-4o".data, none, none⟩]

/-- Outcome of `requests.get` on the OpenRouter catalog: an exception
anywhere in the `try` block (network error, malformed JSON), or an HTTP
response with a status code and a parsed `data` array. -/
inductive FetchOutcome where
  | netError
  | httpResp (status : Nat) (data : List ModelEntry)
  deriving DecidableEq, Repr

/-- Lexicographic less-or-equal on Python strings by code point. -/
def lexLE : List Char → List Char → Bool
  | [], _ => true
  | _ :: _, [] => false
  | a :: as, b :: bs => if a < b then true else if a = b then lexLE as bs else false

/-- The sort key `x.get("name", "")` (api.py line 80). -/
def nameKey (m : ModelEntry) : List Char := m.name.getD []

/-- Stable insertion into a name-sorted list: the incoming element
stops in front of the first element of greater-or-equal key, so in
`sortByName` an earlier input element ends up ahead of later elements
with an equal key, matching the stability of Python's `list.sort`. -/
def insertByName (m : ModelEntry) : List ModelEntry → List ModelEntry
  | [] => [m]
  | x :: xs => if lexLE (nameKey m) (nameKey x) then m :: x :: xs else x :: insertByName m xs

/-- `free_models.sort(key=lambda x: x.get("name", ""))` — a stable sort
ascending by display name. -/
def sortByName : List ModelEntry → List ModelEntry
  | [] => []
  | x :: xs => insertByName x (sortByName xs)

/-- Pricing filter `pricing.prompt == "0" and pricing.completion == "0"`
(api.py lines 74-78). -/
def isFreeModel (m : ModelEntry) : Bool :=
  m.pricing_prompt = some "0".data && m.pricing_completion = some "0".data

/-- `get_models` (api.py lines 55-87): start from the three hardcoded
OpenAI entries; on a 200 catalog response append the zero-cost entries
sorted by name; on any other status or any exception return the
hardcoded list alone. -/
def get_models (fetch : FetchOutcome) : List ModelEntry :=
  match fetch with
  | .netError => openai_models
  | .httpResp status data =>
    if status = 200 then
      openai_models ++ sortByName (data.filter isFreeModel)
    else
      openai_models

/-- The request body of `POST /chat` (api.py lines 24-26): `model` is
`none` for JSON `null`; an omitted field arrives as the pydantic
default `defaultModel`. -/
structure QueryRequest where
  query : List Char
  model : Option (List Char)
  deriving DecidableEq, Repr

/-- Python's `x or d` on an optional string: `None` and `""` are falsy. -/
def orDefault (m : Option (List Char)) (d : List Char) : List Char :=
  match m with
  | none => d
  | some s => if s = [] then d else s

/-- Outcome of `agent.run(request.query)`: an answer, an
`openai.RateLimitError`, or any other exception with its message. -/
inductive InvokeResult where
  | ok (text : List Char)
  | rateLimit
  | err (msg : List Char)
  deriving DecidableEq, Repr

/-- The successful response body (api.py lines 108-114). -/
structure QueryResponse where
  response : List Char
  meta_model : List Char
  meta_duration : Int
  deriving DecidableEq, Repr

/-- What the `POST /chat` handler produces: a 200 body, an
`HTTPException` with a status and detail, or process termination
(propagated `SystemExit`). -/
inductive ChatOutcome where
  | success (r : QueryResponse)
  | httpError (status : Nat) (detail : List Char)
  | procExit
  deriving DecidableEq, Repr

/-- The fixed 429 advisory message (api.py line 126). -/
def rateLimitMsg : List Char :=
  "Rate limit exceeded (429). The AI model is busy or you have run out of credits. Please try again in 10-20 seconds.".data

/-- Detail of the 500 raised when no agent could be initialized
(api.py line 95). -/
def failInitMsg (model : List Char) : List Char :=
  "Failed to initialize agent for model ".data ++ model

/-- The placeholder used when the request carried no truthy model name
(api.py line 106). -/
def unknownModel : List Char := "Unknown Model".data

/-- `chat` (api.py lines 89-130).  `invoke` stands for the opaque
`agent.run` call and `durationRounded` for the measured wall-clock
duration after `round(·, 2)`; both are inputs of the embedding. -/
def chat (env : Env) (req : QueryRequest) (st : SysState)
    (invoke : AgentHandle → List Char → InvokeResult) (durationRounded : Int) :
    ChatOutcome × SysState :=
  match get_agent_for_model env (orDefault req.model defaultModel) st with
  | (.ok agent, st') =>
    match invoke agent req.query with
    | .ok text =>
      (.success ⟨text, orDefault req.model unknownModel, durationRounded⟩, st')
    | .rateLimit => (.httpError 429 rateLimitMsg, st')
    | .err msg => (.httpError 500 msg, st')
  | (.failed, st') => (.httpError 500 (failInitMsg (orDefault req.model defaultModel)), st')
  | (.exited, st') => (.procExit, st')

/-! ### Helper lemmas about the gateway -/

theorem resolve_cached (env : Env) (model : List Char) (st : SysState) (h : AgentHandle)
    (hl : lookupAgent model st.agent_cache = some h) :
    get_agent_for_model env model st = (.ok h, st) := by
  unfold get_agent_for_model
  rw [hl]

theorem resolve_success_cached (env : Env) (model : List Char) (st : SysState)
    (h : AgentHandle) (st₁ : SysState)
    (hr : get_agent_for_model env model st = (.ok h, st₁)) :
    lookupAgent model st₁.agent_cache = some h := by
  unfold get_agent_for_model at hr
  cases hl : lookupAgent model st.agent_cache with
  | some h' =>
    rw [hl] at hr
    rw [Prod.mk.injEq] at hr
    obtain ⟨hr1, hr2⟩ := hr
    injection hr1 with he
    subst he
    subst hr2
    exact hl
  | none =>
    rw [hl] at hr
    cases hcr : create_pagila_agent env model st with
    | ok pr =>
      obtain ⟨hh, st'⟩ := pr
      rw [hcr] at hr
      rw [Prod.mk.injEq] at hr
      obtain ⟨hr1, hr2⟩ := hr
      injection hr1 with he
      subst he
      subst hr2
      simp [lookupAgent]
    | error e =>
      rw [hcr] at hr
      cases e <;> simp at hr

/-- Shape of a successful `get_db`: the cache is untouched and the
database field either was already set (state unchanged) or is freshly
constructed. -/
theorem get_db_shape (env : Env) (st : SysState) (i : Nat) (st'' : SysState)
    (h : get_db env st = Except.ok (i, st'')) :
    st''.agent_cache = st.agent_cache ∧ st''.db_instance = some i ∧
    ((st'' = st ∧ st.db_instance = some i) ∨
      (st.db_instance = none ∧ i = st.db_count ∧
        st'' = { st with db_instance := some st.db_count, db_count := st.db_count + 1 })) := by
  unfold get_db at h
  split at h
  · rename_i j hinst
    injection h with h'
    rw [Prod.mk.injEq] at h'
    obtain ⟨rfl, rfl⟩ := h'
    exact ⟨rfl, hinst, Or.inl ⟨rfl, hinst⟩⟩
  · rename_i hinst
    split at h
    · injection h with h'
      rw [Prod.mk.injEq] at h'
      obtain ⟨rfl, rfl⟩ := h'
      exact ⟨rfl, rfl, Or.inr ⟨hinst, rfl, rfl⟩⟩
    · exact nomatch h

/-- Shape of a successful `create_pagila_agent`: the constructed handle
carries the requested model name and the shared database instance; the
cache is untouched; the database is reused or constructed once. -/
theorem create_shape (env : Env) (model : List Char) (st : SysState)
    (hh : AgentHandle) (st' : SysState)
    (hcr : create_pagila_agent env model st = Except.ok (hh, st')) :
    hh.model = model ∧ st'.agent_cache = st.agent_cache ∧
    st'.db_instance = some hh.db ∧
    ((st' = st ∧ st.db_instance = some hh.db) ∨
      (st.db_instance = none ∧ hh.db = st.db_count ∧
        st' = { st with db_instance := some st.db_count, db_count := st.db_count + 1 })) := by
  unfold create_pagila_agent at hcr
  split at hcr
  · exact nomatch hcr
  · rename_i prov hprov
    cases hdb : get_db env st with
    | error e => rw [hdb] at hcr; exact nomatch hcr
    | ok pr =>
      obtain ⟨i, st''⟩ := pr
      rw [hdb] at hcr
      injection hcr with hcr'
      rw [Prod.mk.injEq] at hcr'
      obtain ⟨rfl, rfl⟩ := hcr'
      obtain ⟨hc, hdi, hshape⟩ := get_db_shape env st i st'' hdb
      refine ⟨rfl, hc, hdi, ?_⟩
      rcases hshape with ⟨rfl, hsome⟩ | ⟨hn, hi, hupd⟩
      · exact Or.inl ⟨rfl, hsome⟩
      · exact Or.inr ⟨hn, hi, hupd⟩

theorem resolve_cache_monotone (env : Env) (model : List Char) (st : SysState)
    (k : List Char) (v : AgentHandle)
    (hv : lookupAgent k st.agent_cache = some v) :
    lookupAgent k (get_agent_for_model env model st).2.agent_cache = some v := by
  unfold get_agent_for_model
  cases hl : lookupAgent model st.agent_cache with
  | some h' => exact hv
  | none =>
    cases hcr : create_pagila_agent env model st with
    | ok pr =>
      obtain ⟨hh, st'⟩ := pr
      obtain ⟨-, hcache, -, -⟩ := create_shape env model st hh st' hcr
      have hkm : k ≠ model := by
        intro hkm
        rw [hkm, hl] at hv
        exact nomatch hv
      show lookupAgent k ((model, hh) :: st'.agent_cache) = some v
      unfold lookupAgent
      rw [if_neg (fun hq => hkm hq.symm), hcache]
      exact hv
    | error e => cases e <;> exact hv

/-- Inductive invariant of the process state: the database handle, once
constructed, is handle number `0`, at most one construction ever
happens, no agent exists before the database does, and every cached
agent points at the stored database instance. -/
def GoodState (st : SysState) : Prop :=
  (st.db_instance = none → st.db_count = 0 ∧ st.agent_cache = []) ∧
  (∀ i, st.db_instance = some i → i = 0 ∧ st.db_count = 1) ∧
  dbShared st

theorem goodState_init : GoodState initState :=
  ⟨fun _ => ⟨rfl, rfl⟩, fun _ hi => Option.noConfusion hi,
    fun p hp => absurd hp (List.not_mem_nil p)⟩

theorem goodState_resolve (env : Env) (model : List Char) (st : SysState)
    (hg : GoodState st) : GoodState (get_agent_for_model env model st).2 := by
  unfold get_agent_for_model
  cases hl : lookupAgent model st.agent_cache with
  | some h' => exact hg
  | none =>
    cases hcr : create_pagila_agent env model st with
    | ok pr =>
      obtain ⟨hh, st'⟩ := pr
      obtain ⟨-, hcache, hdbi, hshape⟩ := create_shape env model st hh st' hcr
      obtain ⟨hnone, hsome, hsh⟩ := hg
      show GoodState { st' with agent_cache := (model, hh) :: st'.agent_cache }
      rcases hshape with ⟨heq, hst⟩ | ⟨hn, hdb0, heq⟩
      all_goals rw [heq]
      · refine ⟨?_, ?_, ?_⟩
        · intro hni
          have hni' : st.db_instance = none := hni
          rw [hni'] at hst
          exact nomatch hst
        · intro i hi
          have hi' : st.db_instance = some i := hi
          have := hsome i hi'
          exact ⟨this.1, this.2⟩
        · intro p hp
          rcases List.mem_cons.mp hp with rfl | hmem
          · exact hst
          · exact hsh p hmem
      · obtain ⟨hc0, hce⟩ := hnone hn
        refine ⟨?_, ?_, ?_⟩
        · intro hni
          have hni' : (some st.db_count : Option Nat) = none := hni
          exact nomatch hni'
        · intro i hi
          have hi' : (some st.db_count : Option Nat) = some i := hi
          injection hi' with hi''
          refine ⟨by rw [← hi'', hc0], ?_⟩
          show st.db_count + 1 = 1
          rw [hc0]
        · intro p hp
          rcases List.mem_cons.mp hp with rfl | hmem
          · show (some st.db_count : Option Nat) = some hh.db
            rw [hdb0]
          · have hmem' : p ∈ st.agent_cache := hmem
            rw [hce] at hmem'
            exact nomatch hmem'
    | error e => cases e <;> exact hg

theorem goodState_runResolves (env : Env) (models : List (List Char)) (st : SysState)
    (hg : GoodState st) : GoodState (runResolves env models st) := by
  induction models generalizing st with
  | nil => exact hg
  | cons m ms ih => exact ih _ (goodState_resolve env m st hg)

theorem goodState_db_count_le_one (st : SysState) (hg : GoodState st) :
    st.db_count ≤ 1 := by
  cases hinst : st.db_instance with
  | none => rw [(hg.1 hinst).1]; exact Nat.zero_le 1
  | some i => rw [(hg.2.1 i hinst).2]

/-- Resolving one model never creates a cache entry for another
model. -/
theorem resolve_absent_preserved (env : Env) (m : List Char) (st : SysState)
    (k : List Char) (hk : k ≠ m)
    (ha : lookupAgent k st.agent_cache = none) :
    lookupAgent k (get_agent_for_model env m st).2.agent_cache = none := by
  unfold get_agent_for_model
  cases hl : lookupAgent m st.agent_cache with
  | some h' => exact ha
  | none =>
    cases hcr : create_pagila_agent env m st with
    | ok pr =>
      obtain ⟨hh, st'⟩ := pr
      obtain ⟨-, hcache, -, -⟩ := create_shape env m st hh st' hcr
      show lookupAgent k ((m, hh) :: st'.agent_cache) = none
      unfold lookupAgent
      rw [if_neg (fun hq => hk hq.symm), hcache]
      exact ha
    | error e => cases e <;> exact ha

/-- A model absent from the cache stays absent across any sequence of
requests that never resolves it. -/
theorem runResolves_absent (env : Env) (m : List Char) (models : List (List Char))
    (st : SysState) (hm : m ∉ models)
    (ha : lookupAgent m st.agent_cache = none) :
    lookupAgent m (runResolves env models st).agent_cache = none := by
  induction models generalizing st with
  | nil => exact ha
  | cons x xs ih =>
    have hxm : m ≠ x := fun hq => hm (hq ▸ List.mem_cons_self x xs)
    exact ih _ (fun hq => hm (List.mem_cons_of_mem x hq))
      (resolve_absent_preserved env x st m hxm ha)

/-- Cached entries survive any sequence of later resolutions. -/
theorem runResolves_cache_monotone (env : Env) (models : List (List Char))
    (st : SysState) (k : List Char) (v : AgentHandle)
    (hv : lookupAgent k st.agent_cache = some v) :
    lookupAgent k (runResolves env models st).agent_cache = some v := by
  induction models generalizing st with
  | nil => exact hv
  | cons x xs ih => exact ih _ (resolve_cache_monotone env x st k v hv)

/-- After the eager module initialization only the default model can be
cached. -/
theorem moduleInit_absent (env : Env) (m : List Char) (hm : m ≠ defaultModel) :
    lookupAgent m (moduleInit env).2.agent_cache = none := by
  unfold moduleInit get_agent_for_model
  rw [show lookupAgent defaultModel initState.agent_cache = none from rfl]
  cases hcr : create_pagila_agent env defaultModel initState with
  | ok pr =>
    obtain ⟨hh, st'⟩ := pr
    obtain ⟨-, hcache, -, -⟩ := create_shape env defaultModel initState hh st' hcr
    show lookupAgent m ((defaultModel, hh) :: st'.agent_cache) = none
    unfold lookupAgent
    rw [if_neg (fun hq => hm hq.symm), hcache]
    rfl
  | error e => cases e <;> rfl

/-! ### The claims -/

/-- C1: for EVERY errorText containing the literal marker
`"Could not parse LLM output: `"`, `fallback_handler` splits on the
marker, takes the portion after the first marker — the split part at
index 1, i.e. the text from the first marker to the next occurrence or
the end — strips exactly one trailing backtick if present, and returns
the instruction template followed by that text (first conjunct, with no
restriction on how often the marker occurs).  The second conjunct
identifies that portion: at the first marker occurrence with no later
occurrence it is the whole remainder `t`, which yields the spec's
scenario. -/
theorem claim1_marker_extraction :
    (∀ s p t, s = p ++ parseMarker ++ t →
      fallback_handler s =
        fallbackTemplate ++ stripTrailingTick ((splitOnSub parseMarker s).getD 1 [])) ∧
    (∀ s p t, s = p ++ parseMarker ++ t →
      (∀ i, i < p.length → parseMarker.isPrefixOf (List.drop i s) = false) →
      containsSub parseMarker t = false →
      (splitOnSub parseMarker s).getD 1 [] = t) :=
  ⟨fun s p t hdec => fallback_marker_split s p t hdec,
   fun s p t hdec hfirst honce => split_getD1_eq s p t hdec hfirst honce⟩

/-- C1 witness: the spec's own scenario,
errorText = `"Could not parse LLM output: `The answer is 42`"`. -/
theorem claim1_witness :
    fallback_handler "Could not parse LLM output: `The answer is 42`".data =
      "Output parsed but format incorrect. Please repeat this EXACT answer with the prefix 'Final Answer:': The answer is 42".data ∧
    (splitOnSub parseMarker
      "Could not parse LLM output: `The answer is 42`".data).getD 1 [] =
      "The answer is 42`".data := by
  constructor
  · have h := claim1_marker_extraction.1
      "Could not parse LLM output: `The answer is 42`".data [] "The answer is 42`".data
      (by decide)
    rw [h]
    decide
  · exact claim1_marker_extraction.2
      "Could not parse LLM output: `The answer is 42`".data [] "The answer is 42`".data
      (by decide) (fun i hi => absurd hi (Nat.not_lt_zero i)) (by decide)

/-- Modelled from the spec: "the remainder following the first
occurrence of the marker" — everything after the first occurrence of
`sep` in the input, which claim C2 says the extraction uses when the
marker appears multiple times. -/
def remainderAfterFirst (sep : List Char) : List Char → Option (List Char)
  | [] => none
  | c :: rest =>
    if sep.isPrefixOf (c :: rest) then some (List.drop sep.length (c :: rest))
    else remainderAfterFirst sep rest

/-- A two-marker input on which the claimed and the actual extraction
differ. -/
def s2ex : List Char :=
  "Could not parse LLM output: `A Could not parse LLM output: `B".data

/-- C2 counterexample: when the marker appears twice, the remainder
following the first occurrence is
`"A Could not parse LLM output: `B"`, but `fallback_handler` does not
return the template applied to it (it uses only the segment `"A "`
between the two occurrences, as Python's `split` produces). -/
theorem claim2_counterexample :
    remainderAfterFirst parseMarker s2ex =
      some "A Could not parse LLM output: `B".data ∧
    fallback_handler s2ex ≠
      fallbackTemplate ++ stripTrailingTick "A Could not parse LLM output: `B".data := by
  decide

/-- C2 amended: `fallback_handler` is total — every input yields either
a templated extraction or the generic fallback — and when the marker
appears more than once, the extracted text is the segment between the
first occurrence and the next one (Python `split` semantics), not the
whole remainder. -/
theorem claim2_total_and_segment :
    (∀ s, (∃ r, fallback_handler s = fallbackTemplate ++ r) ∨
      fallback_handler s = genericFallback s) ∧
    (∀ s p u v, s = p ++ parseMarker ++ (u ++ parseMarker ++ v) →
      (∀ i, i < p.length → parseMarker.isPrefixOf (List.drop i s) = false) →
      (∀ i, i < u.length →
        parseMarker.isPrefixOf (List.drop i (u ++ parseMarker ++ v)) = false) →
      fallback_handler s = fallbackTemplate ++ stripTrailingTick u) := by
  constructor
  · intro s
    unfold fallback_handler
    by_cases hc : containsSub couldNotParse s = true
    · rw [if_pos hc]
      by_cases hl : 1 < (splitOnSub parseMarker s).length
      · rw [if_pos hl]
        exact Or.inl ⟨_, rfl⟩
      · rw [if_neg hl]
        exact Or.inr rfl
    · rw [if_neg hc]
      exact Or.inr rfl
  · intro s p u v hdec hfirst hmid
    have hshort := containsSub_short_of_marker s p (u ++ parseMarker ++ v) hdec
    have hfirst' : ∀ i, i < p.length →
        parseMarker.isPrefixOf
          (List.drop i (p ++ parseMarker ++ (u ++ parseMarker ++ v))) = false := by
      rw [hdec] at hfirst
      exact hfirst
    have hsplit : splitOnSub parseMarker s =
        p :: splitOnSub parseMarker (u ++ parseMarker ++ v) := by
      rw [hdec]
      exact splitOnSub_first_segment parseMarker p (u ++ parseMarker ++ v)
        parseMarker_ne_nil hfirst'
    have hsplit2 : splitOnSub parseMarker (u ++ parseMarker ++ v) =
        u :: splitOnSub parseMarker v :=
      splitOnSub_first_segment parseMarker u v parseMarker_ne_nil hmid
    rw [hsplit2] at hsplit
    unfold fallback_handler
    rw [if_pos hshort, hsplit]
    rw [if_pos (by simp)]
    rfl

/-- C2 witness: totality at the empty string, and the two-marker input
`s2ex` extracting the in-between segment `"A "`. -/
theorem claim2_witness :
    ((∃ r, fallback_handler [] = fallbackTemplate ++ r) ∨
      fallback_handler [] = genericFallback []) ∧
    fallback_handler s2ex = fallbackTemplate ++ "A ".data := by
  constructor
  · exact claim2_total_and_segment.1 []
  · have h := claim2_total_and_segment.2 s2ex [] "A ".data "B".data
      (by decide) (fun i hi => absurd hi (Nat.not_lt_zero i)) (by decide)
    rw [h]
    decide

/-- A two-marker input refuting C3: the claimed wrapped answer `"42"`
is present in the errorText but absent from the extraction. -/
def s3ex : List Char :=
  parseMarker ++ "oops ".data ++ parseMarker ++ "42".data ++ [backtick]

/-- A single-occurrence input whose closing backtick is followed by
more text: the backtick directly after ANSWER survives into the
output. -/
def s3suf : List Char := parseMarker ++ "42".data ++ [backtick] ++ " tail".data

/-- C3 counterexample.  First conjunct: `s3ex` contains the substring
`"Could not parse LLM output: `42`"` (ANSWER = `"42"` wrapped in
backticks after a marker), yet the extraction does not contain `"42"`
at all — the split takes the text after the FIRST marker occurrence and
returns the template applied to `"oops "`.  Second conjunct: when the
closing backtick is followed by a suffix, the output keeps the backtick
directly after ANSWER, so "with no surrounding backticks" cannot hold
beyond the closing-backtick-ends-the-text case. -/
theorem claim3_counterexample :
    ((∃ x y, s3ex = x ++ (parseMarker ++ "42".data ++ [backtick]) ++ y) ∧
      ¬ ∃ x y, fallback_handler s3ex = x ++ "42".data ++ y) ∧
    fallback_handler s3suf =
      fallbackTemplate ++ ("42".data ++ [backtick] ++ " tail".data) := by
  refine ⟨⟨⟨"Could not parse LLM output: `oops ".data, [], by decide⟩, ?_⟩, by decide⟩
  rintro ⟨x, y, hxy⟩
  have hc : containsSub "42".data (fallback_handler s3ex) = true :=
    (containsSub_iff "42".data (fallback_handler s3ex)).mpr ⟨x, y, hxy⟩
  have hf : containsSub "42".data (fallback_handler s3ex) = false := by decide
  rw [hf] at hc
  exact nomatch hc

/-- C3 amended: restricted only to ANSWER wrapped at the FIRST marker
occurrence.  First conjunct: for every errorText of the form
prefix ++ marker ++ ANSWER ++ backtick ++ suffix, where the shown
marker occurrence is the first in the text and no occurrence starts
inside ANSWER ++ backtick, the extraction contains ANSWER.  Second
conjunct: when the closing backtick ends the errorText (empty suffix),
the extraction is the template followed by exactly ANSWER — and for
backtick-free ANSWER the result has no backtick at all, hence none
around ANSWER. -/
theorem claim3_extracted_answer :
    (∀ s p A post, s = p ++ parseMarker ++ (A ++ [backtick] ++ post) →
      (∀ i, i < p.length → parseMarker.isPrefixOf (List.drop i s) = false) →
      (∀ i, i < A.length + 1 →
        parseMarker.isPrefixOf (List.drop i (A ++ [backtick] ++ post)) = false) →
      ∃ x y, fallback_handler s = x ++ A ++ y) ∧
    (∀ s p A, s = p ++ parseMarker ++ (A ++ [backtick]) →
      (∀ i, i < p.length → parseMarker.isPrefixOf (List.drop i s) = false) →
      (∀ i, i < A.length + 1 →
        parseMarker.isPrefixOf (List.drop i (A ++ [backtick])) = false) →
      fallback_handler s = fallbackTemplate ++ A ∧
      (backtick ∉ A → backtick ∉ fallback_handler s)) := by
  constructor
  · intro s p A post hdec hfirst hwrap
    have h1 := fallback_marker_split s p (A ++ [backtick] ++ post) hdec
    have hfirst' : ∀ i, i < p.length →
        parseMarker.isPrefixOf
          (List.drop i (p ++ parseMarker ++ (A ++ [backtick] ++ post))) = false := by
      rw [hdec] at hfirst
      exact hfirst
    have hsegment : splitOnSub parseMarker s =
        p :: splitOnSub parseMarker (A ++ [backtick] ++ post) := by
      rw [hdec]
      exact splitOnSub_first_segment parseMarker p (A ++ [backtick] ++ post)
        parseMarker_ne_nil hfirst'
    have hwrap' : ∀ i, i < (A ++ [backtick]).length →
        parseMarker.isPrefixOf (List.drop i ((A ++ [backtick]) ++ post)) = false := by
      intro i hi
      exact hwrap i (by simpa using hi)
    obtain ⟨w, hw⟩ := splitOnSub_head_pre parseMarker (A ++ [backtick]) post hwrap'
    have hgd : (splitOnSub parseMarker s).getD 1 [] =
        (splitOnSub parseMarker (A ++ [backtick] ++ post)).headD [] := by
      rw [hsegment]
      cases hL : splitOnSub parseMarker (A ++ [backtick] ++ post) with
      | nil => exact absurd hL (splitGo_ne_nil parseMarker 0 (A ++ [backtick] ++ post))
      | cons q qs => rfl
    obtain ⟨y, hy⟩ := stripTrailingTick_append_pre A ([backtick] ++ w) (by simp)
    refine ⟨fallbackTemplate, y, ?_⟩
    rw [h1, hgd, hw, List.append_assoc, hy, ← List.append_assoc]
  · intro s p A hdec hfirst hwrap
    have hcs : containsSub parseMarker (A ++ [backtick]) = false := by
      apply not_contains_of_no_start parseMarker (A ++ [backtick]) parseMarker_ne_nil
      intro i hi
      exact hwrap i (by simpa using hi)
    have h1 := fallback_marker_split s p (A ++ [backtick]) hdec
    have h2 := split_getD1_eq s p (A ++ [backtick]) hdec hfirst hcs
    have heq : fallback_handler s = fallbackTemplate ++ A := by
      rw [h1, h2, stripTrailingTick_append_tick]
    refine ⟨heq, ?_⟩
    intro hA hmem
    rw [heq] at hmem
    rcases List.mem_append.mp hmem with hm | hm
    · exact absurd hm (by decide)
    · exact hA hm

/-- C3 witness: the suffixed input `s3suf` still contains ANSWER
`"42"`, and a concrete prefix-free single-occurrence input yields
exactly the template plus ANSWER. -/
theorem claim3_witness :
    (∃ x y, fallback_handler s3suf = x ++ "42".data ++ y) ∧
    fallback_handler (parseMarker ++ ("The answer is 42".data ++ [backtick])) =
      fallbackTemplate ++ "The answer is 42".data := by
  constructor
  · exact claim3_extracted_answer.1 s3suf [] "42".data " tail".data (by decide)
      (fun i hi => absurd hi (Nat.not_lt_zero i)) (by decide)
  · exact (claim3_extracted_answer.2
      (parseMarker ++ ("The answer is 42".data ++ [backtick]))
      [] "The answer is 42".data (by decide)
      (fun i hi => absurd hi (Nat.not_lt_zero i)) (by decide)).1

/-- C4: for every errorText without the marker, `fallback_handler`
returns the generic fallback string, which embeds the original
errorText verbatim; nothing is raised (the embedding is total). -/
theorem claim4_generic_fallback (s : List Char)
    (h : containsSub parseMarker s = false) :
    fallback_handler s = genericFallback s ∧
    ∃ x y, fallback_handler s = x ++ s ++ y := by
  have hne : ¬ ∃ a b, s = a ++ parseMarker ++ b := by
    intro hex
    rw [(containsSub_iff parseMarker s).mpr hex] at h
    exact nomatch h
  have hres : fallback_handler s = genericFallback s := by
    unfold fallback_handler
    by_cases hc : containsSub couldNotParse s = true
    · rw [if_pos hc, splitOnSub_not_contains parseMarker s hne]
      rw [if_neg (by simp)]
    · rw [if_neg hc]
  refine ⟨hres, "Error: ".data,
    ". Please check your output format. If you have the answer, output it as 'Final Answer: [your answer]'.".data, ?_⟩
  rw [hres]
  rfl

/-- C4 witness: a markerless error string maps to the generic fallback
and embeds the input. -/
theorem claim4_witness :
    fallback_handler "division by zero".data =
      genericFallback "division by zero".data ∧
    ∃ x y, fallback_handler "division by zero".data =
      x ++ "division by zero".data ++ y :=
  claim4_generic_fallback "division by zero".data (by decide)

/-- C5: `get_agent_for_model` is idempotent.  A cached handle is
returned unchanged with no state change (no re-construction), and a
second call with the same model returns the identical handle with no
further state change — construction effects happen at most once per
model. -/
theorem claim5_resolve_idempotent :
    (∀ env model st h, lookupAgent model st.agent_cache = some h →
      get_agent_for_model env model st = (ResolveResult.ok h, st)) ∧
    (∀ env env2 model st h st1,
      get_agent_for_model env model st = (ResolveResult.ok h, st1) →
      get_agent_for_model env2 model st1 = (ResolveResult.ok h, st1)) := by
  constructor
  · exact fun env model st h hl => resolve_cached env model st h hl
  · intro env env2 model st h st1 hr
    exact resolve_cached env2 model st1 h
      (resolve_success_cached env model st h st1 hr)

/-- C5 witness: a cache hit returns the stored handle with the state
untouched, and resolving twice from the empty state yields the same
handle and state. -/
theorem claim5_witness :
    get_agent_for_model ⟨true, true, true⟩ defaultModel
        ⟨some 0, 1, [(defaultModel, ⟨defaultModel, Provider.openrouter, 0⟩)]⟩ =
      (ResolveResult.ok ⟨defaultModel, Provider.openrouter, 0⟩,
        ⟨some 0, 1, [(defaultModel, ⟨defaultModel, Provider.openrouter, 0⟩)]⟩) ∧
    get_agent_for_model ⟨true, true, true⟩ defaultModel
        (get_agent_for_model ⟨true, true, true⟩ defaultModel initState).2 =
      (ResolveResult.ok ⟨defaultModel, Provider.openrouter, 0⟩,
        (get_agent_for_model ⟨true, true, true⟩ defaultModel initState).2) := by
  constructor
  · exact claim5_resolve_idempotent.1 ⟨true, true, true⟩ defaultModel
      ⟨some 0, 1, [(defaultModel, ⟨defaultModel, Provider.openrouter, 0⟩)]⟩
      ⟨defaultModel, Provider.openrouter, 0⟩ (by decide)
  · exact claim5_resolve_idempotent.2 ⟨true, true, true⟩ ⟨true, true, true⟩
      defaultModel initState ⟨defaultModel, Provider.openrouter, 0⟩
      (get_agent_for_model ⟨true, true, true⟩ defaultModel initState).2 (by decide)

/-- C6: the database handle is a process-wide singleton.  `get_db`
after a successful construction returns the stored instance unchanged;
along any trace of resolutions starting at process start (the eager
module initialization followed by any sequence of requests) at most one
database construction ever happens, and every cached agent shares the
stored instance. -/
theorem claim6_db_singleton :
    (∀ env st i, st.db_instance = some i → get_db env st = Except.ok (i, st)) ∧
    (∀ env models,
      (runResolves env models (moduleInit env).2).db_count ≤ 1 ∧
      dbShared (runResolves env models (moduleInit env).2)) := by
  constructor
  · intro env st i hi
    unfold get_db
    rw [hi]
  · intro env models
    have hg : GoodState (runResolves env models (moduleInit env).2) :=
      goodState_runResolves env models (moduleInit env).2
        (goodState_resolve env defaultModel initState goodState_init)
    exact ⟨goodState_db_count_le_one _ hg, hg.2.2⟩

/-- C6 witness: a stored instance is returned unchanged, and a trace
resolving the default model and a GPT model performs at most one
database construction. -/
theorem claim6_witness :
    get_db ⟨true, true, true⟩ ⟨some 5, 1, []⟩ =
      Except.ok (5, (⟨some 5, 1, []⟩ : SysState)) ∧
    (runResolves ⟨true, true, true⟩ [defaultModel, "gpt-4o".data]
        (moduleInit ⟨true, true, true⟩).2).db_count ≤ 1 := by
  constructor
  · exact claim6_db_singleton.1 ⟨true, true, true⟩ ⟨some 5, 1, []⟩ 5 rfl
  · exact (claim6_db_singleton.2 ⟨true, true, true⟩ [defaultModel, "gpt-4o".data]).1

/-- C7: a failed resolve never corrupts the cache.  When
`get_agent_for_model` does not produce a handle (a missing credential
raised / exited, or the database was unreachable), the state is left
exactly as it was, no entry for the model is cached, and a later
request for the same model goes through construction again (here: with
an environment in which construction succeeds, the retry builds and
caches the handle). -/
theorem claim7_failure_not_cached (env : Env) (model : List Char) (st : SysState)
    (hfail : ∀ h, (get_agent_for_model env model st).1 ≠ ResolveResult.ok h) :
    (get_agent_for_model env model st).2 = st ∧
    lookupAgent model (get_agent_for_model env model st).2.agent_cache = none ∧
    (∀ env2 h2 st2, create_pagila_agent env2 model st = Except.ok (h2, st2) →
      get_agent_for_model env2 model (get_agent_for_model env model st).2 =
        (ResolveResult.ok h2,
          { st2 with agent_cache := (model, h2) :: st2.agent_cache })) := by
  have hlook : lookupAgent model st.agent_cache = none := by
    cases hl : lookupAgent model st.agent_cache with
    | none => rfl
    | some h =>
      exact absurd (congrArg Prod.fst (resolve_cached env model st h hl)) (hfail h)
  have hstate : (get_agent_for_model env model st).2 = st := by
    unfold get_agent_for_model
    rw [hlook]
    cases hcr : create_pagila_agent env model st with
    | ok pr =>
      obtain ⟨hh, st'⟩ := pr
      exact absurd (by unfold get_agent_for_model; rw [hlook, hcr]) (hfail hh)
    | error e => cases e <;> rfl
  refine ⟨hstate, by rw [hstate]; exact hlook, ?_⟩
  intro env2 h2 st2 hcr2
  rw [hstate]
  unfold get_agent_for_model
  rw [hlook, hcr2]

/-- C7 witness: with the OpenRouter credential missing the resolve
fails (the process would exit) and caches nothing; retrying with the
credential present constructs and caches the handle. -/
theorem claim7_witness :
    (get_agent_for_model ⟨false, true, true⟩ defaultModel initState).2 = initState ∧
    get_agent_for_model ⟨true, true, true⟩ defaultModel
        (get_agent_for_model ⟨false, true, true⟩ defaultModel initState).2 =
      (ResolveResult.ok ⟨defaultModel, Provider.openrouter, 0⟩,
        ⟨some 0, 1, [(defaultModel, ⟨defaultModel, Provider.openrouter, 0⟩)]⟩) := by
  have hres : (get_agent_for_model ⟨false, true, true⟩ defaultModel initState).1 =
      ResolveResult.exited := by decide
  have h := claim7_failure_not_cached ⟨false, true, true⟩ defaultModel initState
    (fun hh hq => by rw [hres] at hq; exact ResolveResult.noConfusion hq)
  refine ⟨h.1, ?_⟩
  have h3 := h.2.2 ⟨true, true, true⟩ ⟨defaultModel, Provider.openrouter, 0⟩
    ⟨some 0, 1, []⟩ rfl
  exact h3

/-- C8: `GET /models` never fails: its result always starts with the
three fixed OpenAI descriptors, and on a network error or a non-200
catalog response it is exactly the OpenAI list alone. -/
theorem claim8_models_resilient :
    (∀ fetch, ∃ rest, get_models fetch = openai_models ++ rest) ∧
    (get_models FetchOutcome.netError = openai_models) ∧
    (∀ status data, status ≠ 200 →
      get_models (FetchOutcome.httpResp status data) = openai_models) := by
  refine ⟨?_, rfl, ?_⟩
  · intro fetch
    cases fetch with
    | netError => exact ⟨[], by simp [get_models]⟩
    | httpResp status data =>
      simp only [get_models]
      by_cases hs : status = 200
      · rw [if_pos hs]
        exact ⟨_, rfl⟩
      · rw [if_neg hs]
        exact ⟨[], by simp⟩
  · intro status data hs
    simp only [get_models]
    rw [if_neg hs]

/-- C8 witness: a 500 catalog response degrades to the OpenAI list, and
the OpenAI descriptors are a prefix of every result. -/
theorem claim8_witness :
    get_models (FetchOutcome.httpResp 500 []) = openai_models ∧
    ∃ rest, get_models (FetchOutcome.httpResp 200
      [⟨some "m".data, some "M".data, some "0".data, some "0".data⟩]) =
        openai_models ++ rest := by
  constructor
  · exact claim8_models_resilient.2.2 500 [] (by decide)
  · exact claim8_models_resilient.1 (FetchOutcome.httpResp 200
      [⟨some "m".data, some "M".data, some "0".data, some "0".data⟩])

/-- A fully-provisioned environment. -/
def envAll : Env := ⟨true, true, true⟩

/-- C9 counterexample: claim C9 says no `AgentHandle` is constructed
before the first request resolving its identifier; but module import of
api.py (line 49) eagerly resolves the default model, so after module
initialization — before any request — the cache already holds a handle
for the default model. -/
theorem claim9_counterexample :
    (moduleInit envAll).2.agent_cache ≠ [] ∧
    lookupAgent defaultModel (moduleInit envAll).2.agent_cache =
      some ⟨defaultModel, Provider.openrouter, 0⟩ := by
  decide

/-- C9 amended: every `AgentHandle` except the default model's is
created lazily, as a trace property.  Along any request sequence after
the eager module initialization, a non-default model that no request
has yet resolved has no handle in the cache (first conjunct: absence
until first use); a successful resolve caches its handle under its
model name (second conjunct: construction on first use); and a cached
entry persists across every later request sequence (third conjunct: no
eviction for the process lifetime). -/
theorem claim9_lazy_except_default :
    (∀ env m models, m ≠ defaultModel → m ∉ models →
      lookupAgent m (runResolves env models (moduleInit env).2).agent_cache = none) ∧
    (∀ env m st h st1, get_agent_for_model env m st = (ResolveResult.ok h, st1) →
      lookupAgent m st1.agent_cache = some h) ∧
    (∀ env models st k v, lookupAgent k st.agent_cache = some v →
      lookupAgent k (runResolves env models st).agent_cache = some v) := by
  refine ⟨?_, ?_, ?_⟩
  · intro env m models hm hnot
    exact runResolves_absent env m models (moduleInit env).2 hnot
      (moduleInit_absent env m hm)
  · exact fun env m st h st1 hr => resolve_success_cached env m st h st1 hr
  · exact fun env models st k v hv => runResolves_cache_monotone env models st k v hv

/-- C9 witness: after eager module initialization and a request trace
that never asks for a GPT model, no GPT handle exists; a successful
resolve of a GPT model caches its handle; and the default entry
survives a later trace resolving another model. -/
theorem claim9_witness :
    lookupAgent "gpt-4o".data
      (runResolves envAll [defaultModel]
        (moduleInit envAll).2).agent_cache = none ∧
    lookupAgent "gpt-4o".data
      (⟨some 0, 1, [("gpt-4o".data, ⟨"gpt-4o".data, Provider.openai, 0⟩)]⟩ :
        SysState).agent_cache = some ⟨"gpt-4o".data, Provider.openai, 0⟩ ∧
    lookupAgent defaultModel
      (runResolves envAll ["gpt-4o".data]
        (⟨some 0, 1, [(defaultModel, ⟨defaultModel, Provider.openrouter, 0⟩)]⟩ :
          SysState)).agent_cache = some ⟨defaultModel, Provider.openrouter, 0⟩ := by
  refine ⟨claim9_lazy_except_default.1 envAll "gpt-4o".data [defaultModel]
    (by decide) (by decide), ?_, ?_⟩
  · exact claim9_lazy_except_default.2.1 envAll "gpt-4o".data
      ⟨some 0, 1, []⟩ ⟨"gpt-4o".data, Provider.openai, 0⟩
      ⟨some 0, 1, [("gpt-4o".data, ⟨"gpt-4o".data, Provider.openai, 0⟩)]⟩
      (by decide)
  · exact claim9_lazy_except_default.2.2 envAll ["gpt-4o".data]
      ⟨some 0, 1, [(defaultModel, ⟨defaultModel, Provider.openrouter, 0⟩)]⟩
      defaultModel ⟨defaultModel, Provider.openrouter, 0⟩ (by decide)

/-- C10: a `POST /chat` request whose `model` field is JSON null or the
empty string resolves the agent for the default identifier
`"mistralai/mistral-7b-instruct:free"` (both values are falsy for
Python's `or`), yet on success the returned `metadata.model` is the
string `"Unknown Model"`, not the identifier actually used. -/
theorem claim10_null_model_metadata (env : Env) (st : SysState)
    (invoke : AgentHandle → List Char → InvokeResult) (d : Int)
    (q : List Char) (m : Option (List Char))
    (hm : m = none ∨ m = some []) :
    orDefault m defaultModel = defaultModel ∧
    (∀ agent st1 text,
      get_agent_for_model env defaultModel st = (ResolveResult.ok agent, st1) →
      invoke agent q = InvokeResult.ok text →
      (chat env ⟨q, m⟩ st invoke d).1 =
        ChatOutcome.success ⟨text, unknownModel, d⟩) := by
  have hdef : orDefault m defaultModel = defaultModel := by
    rcases hm with rfl | rfl
    · rfl
    · rfl
  have hunk : orDefault m unknownModel = unknownModel := by
    rcases hm with rfl | rfl
    · rfl
    · rfl
  refine ⟨hdef, ?_⟩
  intro agent st1 text hres hinv
  simp only [chat, hdef, hres, hinv, hunk]

/-- C10 witness: an explicit-null model with a successful invocation
yields metadata.model = "Unknown Model" while the default agent served
the request. -/
theorem claim10_witness :
    orDefault none defaultModel = defaultModel ∧
    (chat envAll ⟨"hi".data, none⟩ initState
        (fun _ _ => InvokeResult.ok "Hello".data) 1).1 =
      ChatOutcome.success ⟨"Hello".data, unknownModel, 1⟩ := by
  have h := claim10_null_model_metadata envAll initState
    (fun _ _ => InvokeResult.ok "Hello".data) 1 "hi".data none (Or.inl rfl)
  refine ⟨h.1, ?_⟩
  exact h.2 ⟨defaultModel, Provider.openrouter, 0⟩
    ⟨some 0, 1, [(defaultModel, ⟨defaultModel, Provider.openrouter, 0⟩)]⟩
    "Hello".data (by decide) rfl

end SpaRag
